import Mathlib

/-!
Shallow embedding of the drips-network/search-sync change-detection and
synchronization pipeline.

Timestamps are modelled as `Nat` milliseconds since the epoch (the value of
`Date.getTime()`); `new Date(ms + 1)` is `ms + 1`.  Fallible external calls
(database queries, index upserts, task waits, detector stop) are modelled as
`Except String` values supplied as inputs to each cycle, and thrown JS errors
as `Except.error`.  Logging calls are recorded as boolean flags / command
lists in the result structures.
-/

namespace SearchSync

abbrev Timestamp := Nat

/-- Row shape returned by the watermark detector's DripLists query
(`src/unnamed/part_000`, `getChangedDripLists`). -/
structure DripList where
  id : String
  name : String
  updatedAt : Timestamp
  description : String
  ownerAddress : String
  ownerAccountId : String
deriving Repr, DecidableEq

/-- Row shape returned by the watermark detector's GitProjects query
(`src/unnamed/part_000`, `getChangedProjects`). -/
structure Project where
  id : String
  name : String
  updatedAt : Timestamp
  description : String
  ownerAddress : String
  ownerAccountId : String
  url : String
deriving Repr, DecidableEq

/-- The `Changes` type of `src/unnamed/part_002`. -/
structure Changes where
  dripLists : List DripList
  projects : List Project
  timestamp : Timestamp
deriving Repr, DecidableEq

/-- Transaction-control statements issued through the pool. -/
inductive SqlCmd where
  | begin
  | commit
  | rollback
deriving Repr, DecidableEq

/-- The value of `Math.max(...l)` for a nonempty list of natural timestamps. -/
def listMax (l : List Timestamp) : Timestamp := l.foldl Nat.max 0

/-- Embedding of `gatherChanges` (`src/unnamed/part_000`, lines 58-90).
The two per-kind query results (joined by `Promise.all`, first rejection
short-circuiting) are inputs; the returned command list records the
transaction-control statements issued. -/
def gatherChanges (qd : Except String (List DripList))
    (qp : Except String (List Project)) :
    Except String (Option Changes) × List SqlCmd :=
  match qd, qp with
  | .error e, _ => (.error e, [.begin, .rollback])
  | _, .error e => (.error e, [.begin, .rollback])
  | .ok dripLists, .ok projects =>
    if dripLists.length = 0 ∧ projects.length = 0 then
      (.ok none, [.begin, .commit])
    else
      let allTimestamps :=
        dripLists.map (fun dl => dl.updatedAt) ++ projects.map (fun p => p.updatedAt)
      let latestTimestamp := listMax allTimestamps + 1
      (.ok (some { dripLists := dripLists, projects := projects,
                   timestamp := latestTimestamp }), [.begin, .commit])

/-- Mutable state closed over by `createPollingChangeDetection`
(`src/unnamed/part_000`, lines 25-27). -/
structure DetectorState where
  isRunning : Bool
  intervalSet : Bool
  lastProcessedTime : Timestamp
deriving Repr, DecidableEq

/-- Outcome of an `await onChangesDetected(changes)` call. -/
inductive CbOutcome where
  | ok
  | err (e : String)
deriving Repr, DecidableEq

/-- Observable result of one run of `poll` (`src/unnamed/part_000`,
lines 105-126): the state afterwards, the change set delivered to the
callback (if any), which log lines fired, and the SQL commands issued. -/
structure CycleResult where
  state : DetectorState
  delivered : Option Changes
  noChangesLogged : Bool
  errorLogged : Bool
  sqlCmds : List SqlCmd

/-- Embedding of one execution of `poll` (`src/unnamed/part_000`,
lines 105-126).  Note the source order: `lastProcessedTime =
changes.timestamp` on line 112 executes before `await
onChangesDetected(changes)` on line 114, and the `catch` block only logs. -/
def poll (st : DetectorState) (qd : Except String (List DripList))
    (qp : Except String (List Project)) (cb : Changes → CbOutcome) : CycleResult :=
  if st.isRunning = false then
    { state := st, delivered := none, noChangesLogged := false,
      errorLogged := false, sqlCmds := [] }
  else
    match gatherChanges qd qp with
    | (.error _, cmds) =>
      { state := st, delivered := none, noChangesLogged := false,
        errorLogged := true, sqlCmds := cmds }
    | (.ok none, cmds) =>
      { state := st, delivered := none, noChangesLogged := true,
        errorLogged := false, sqlCmds := cmds }
    | (.ok (some changes), cmds) =>
      let st1 := { st with lastProcessedTime := changes.timestamp }
      match cb changes with
      | .ok =>
        { state := st1, delivered := some changes, noChangesLogged := false,
          errorLogged := false, sqlCmds := cmds }
      | .err _ =>
        { state := st1, delivered := some changes, noChangesLogged := false,
          errorLogged := true, sqlCmds := cmds }

/-- One cycle's external input: the two query outcomes and the callback. -/
structure CycleInput where
  qd : Except String (List DripList)
  qp : Except String (List Project)
  cb : Changes → CbOutcome

/-- Iterated detection cycles (the timer firing `poll` repeatedly). -/
def runPolls (st : DetectorState) : List CycleInput → DetectorState
  | [] => st
  | i :: rest => runPolls (poll st i.qd i.qp i.cb).state rest

/-- Embedding of the detector's `start` (`src/unnamed/part_000`,
lines 93-131): result state, whether the already-running warning fired, and
the initial poll's result when one ran. -/
structure DetStartResult where
  state : DetectorState
  warned : Bool
  initialCycle : Option CycleResult

namespace Detector

/-- Embedding of `start(onChangesDetected)` (`src/unnamed/part_000`,
lines 93-131); `i` is the external input consumed by the initial poll. -/
def start (st : DetectorState) (i : CycleInput) : DetStartResult :=
  if st.isRunning then
    { state := st, warned := true, initialCycle := none }
  else
    let st1 := { st with isRunning := true }
    let cycle := poll st1 i.qd i.qp i.cb
    { state := { cycle.state with intervalSet := true }, warned := false,
      initialCycle := some cycle }

/-- Embedding of the detector's `stop` (`src/unnamed/part_000`,
lines 133-141). -/
def stop (st : DetectorState) : DetectorState :=
  { st with isRunning := false, intervalSet := false }

end Detector

/-- The query precondition guaranteed by the SQL filter
`WHERE updatedAt >= $1`: every returned row's `updatedAt` is at or past the
watermark passed to the cycle. -/
def rowsAtOrPast (qd : Except String (List DripList))
    (qp : Except String (List Project)) (w : Timestamp) : Prop :=
  (∀ dls, qd = .ok dls → ∀ dl ∈ dls, w ≤ dl.updatedAt) ∧
  (∀ ps, qp = .ok ps → ∀ p ∈ ps, w ≤ p.updatedAt)

/-- Whether the cycle's queries succeeded and returned at least one row. -/
def hasRows (qd : Except String (List DripList))
    (qp : Except String (List Project)) : Prop :=
  ∃ dls ps, qd = .ok dls ∧ qp = .ok ps ∧ (dls ≠ [] ∨ ps ≠ [])

theorem le_foldl_max (a : Nat) (l : List Timestamp) : a ≤ l.foldl Nat.max a := by
  induction l generalizing a with
  | nil => exact Nat.le_refl a
  | cons b l ih => exact Nat.le_trans (Nat.le_max_left a b) (ih (Nat.max a b))

theorem mem_le_foldl_max {t : Timestamp} {l : List Timestamp} (a : Nat) (h : t ∈ l) :
    t ≤ l.foldl Nat.max a := by
  induction l generalizing a with
  | nil => cases h
  | cons b l ih =>
    rcases List.mem_cons.mp h with rfl | hmem
    · exact Nat.le_trans (Nat.le_max_right a t) (le_foldl_max (Nat.max a t) l)
    · exact ih (Nat.max a b) hmem

theorem le_listMax {t : Timestamp} {l : List Timestamp} (h : t ∈ l) :
    t ≤ listMax l := mem_le_foldl_max 0 h

theorem foldl_max_mem (a : Nat) (l : List Timestamp) :
    l.foldl Nat.max a = a ∨ l.foldl Nat.max a ∈ l := by
  induction l generalizing a with
  | nil => exact Or.inl rfl
  | cons b l ih =>
    rcases ih (Nat.max a b) with h | h
    · rcases Nat.le_total a b with hab | hba
      · right
        rw [List.foldl_cons, h]
        have hm : Nat.max a b = b := Nat.max_eq_right hab
        rw [hm]
        exact List.mem_cons_self b l
      · left
        rw [List.foldl_cons, h]
        exact Nat.max_eq_left hba
    · right
      exact List.mem_cons_of_mem b h

theorem listMax_mem {l : List Timestamp} (h : l ≠ []) : listMax l ∈ l := by
  unfold listMax
  rcases foldl_max_mem 0 l with h0 | hmem
  · match l, h with
    | b :: l2, _ =>
      have hb : b ≤ List.foldl Nat.max 0 (b :: l2) := mem_le_foldl_max 0 (List.mem_cons_self b l2)
      rw [h0] at hb
      rw [h0]
      have hb0 : b = 0 := Nat.le_zero.mp hb
      rw [← hb0]
      exact List.mem_cons_self b l2
  · exact hmem

theorem gatherChanges_ok_some {qd : Except String (List DripList)}
    {qp : Except String (List Project)} {changes : Changes}
    (h : (gatherChanges qd qp).1 = .ok (some changes)) :
    ∃ dls ps, qd = .ok dls ∧ qp = .ok ps ∧ ¬(dls = [] ∧ ps = []) ∧
      changes = { dripLists := dls, projects := ps,
                  timestamp := listMax (dls.map (fun dl => dl.updatedAt) ++
                    ps.map (fun p => p.updatedAt)) + 1 } := by
  cases qd with
  | error e => simp [gatherChanges] at h
  | ok dls =>
    cases qp with
    | error e => simp [gatherChanges] at h
    | ok ps =>
      have hne : ¬(dls = [] ∧ ps = []) := by
        intro ⟨h1, h2⟩
        subst h1; subst h2
        simp [gatherChanges] at h
      have hlen : ¬(dls.length = 0 ∧ ps.length = 0) := by
        intro ⟨h1, h2⟩
        exact hne ⟨List.length_eq_zero.mp h1, List.length_eq_zero.mp h2⟩
      refine ⟨dls, ps, rfl, rfl, hne, ?_⟩
      simp only [gatherChanges, if_neg hlen] at h
      exact (Option.some_inj.mp (Except.ok.inj h)).symm

theorem gatherChanges_empty : (gatherChanges (.ok []) (.ok [])).1 = .ok none := rfl

theorem gatherChanges_empty_pair :
    gatherChanges (.ok ([] : List DripList)) (.ok ([] : List Project)) =
      (.ok none, [SqlCmd.begin, SqlCmd.commit]) := rfl

theorem poll_not_running {st : DetectorState} (qd : Except String (List DripList))
    (qp : Except String (List Project)) (cb : Changes → CbOutcome)
    (h : st.isRunning = false) :
    poll st qd qp cb = { state := st, delivered := none, noChangesLogged := false,
                         errorLogged := false, sqlCmds := [] } := by
  simp [poll, h]

/-- Sample DripList row used by concrete witnesses. -/
def dlT10 : DripList :=
  { id := "dl-0", name := "list", updatedAt := 10, description := "d",
    ownerAddress := "0xa", ownerAccountId := "1" }

/-- Sample Project row used by concrete witnesses. -/
def pT20 : Project :=
  { id := "p-0", name := "owner/repo", updatedAt := 20, description := "d",
    ownerAddress := "0xb", ownerAccountId := "2", url := "u" }

/-- Sample detector state with watermark 5 used by concrete witnesses. -/
def stW5 : DetectorState :=
  { isRunning := true, intervalSet := true, lastProcessedTime := 5 }

/-- A callback that always throws. -/
def cbThrow : Changes → CbOutcome := fun _ => .err "sync failed"

/-- A callback that always succeeds. -/
def cbOk : Changes → CbOutcome := fun _ => .ok

/-- C3: when the two per-kind result sets are not both empty, the emitted
change set's timestamp (the new watermark) is `max(updatedAt over all rows) + 1`
millisecond; moreover that maximum bounds every row strictly from below the
new watermark and is attained by some row. -/
theorem gatherChanges_new_watermark (dls : List DripList) (ps : List Project)
    (hne : ¬(dls = [] ∧ ps = [])) :
    ∃ c, (gatherChanges (.ok dls) (.ok ps)).1 = .ok (some c) ∧
      c.timestamp = listMax (dls.map (fun dl => dl.updatedAt) ++
        ps.map (fun p => p.updatedAt)) + 1 ∧
      (∀ t ∈ dls.map (fun dl => dl.updatedAt) ++ ps.map (fun p => p.updatedAt),
        t < c.timestamp) ∧
      c.timestamp - 1 ∈ dls.map (fun dl => dl.updatedAt) ++
        ps.map (fun p => p.updatedAt) := by
  have hlen : ¬(dls.length = 0 ∧ ps.length = 0) := by
    intro ⟨h1, h2⟩
    exact hne ⟨List.length_eq_zero.mp h1, List.length_eq_zero.mp h2⟩
  refine ⟨{ dripLists := dls, projects := ps,
            timestamp := listMax (dls.map (fun dl => dl.updatedAt) ++
              ps.map (fun p => p.updatedAt)) + 1 }, ?_, rfl, ?_, ?_⟩
  · simp only [gatherChanges, if_neg hlen]
  · intro t ht
    exact Nat.lt_succ_of_le (le_listMax ht)
  · have hts : dls.map (fun dl => dl.updatedAt) ++ ps.map (fun p => p.updatedAt) ≠ [] := by
      intro habs
      rcases List.append_eq_nil.mp habs with ⟨h1, h2⟩
      exact hne ⟨List.map_eq_nil_iff.mp h1, List.map_eq_nil_iff.mp h2⟩
    simpa using listMax_mem hts

/-- Witness for C3 at a concrete input: one drip list at t=10 and one project
at t=20 produce the new watermark 21. -/
theorem gatherChanges_new_watermark_witness :
    ∃ c, (gatherChanges (.ok [dlT10]) (.ok [pT20])).1 = .ok (some c) ∧
      c.timestamp = 21 := by
  obtain ⟨c, h1, h2, _, _⟩ :=
    gatherChanges_new_watermark [dlT10] [pT20] (by simp)
  exact ⟨c, h1, by rw [h2]; rfl⟩

/-- C4: when both per-kind queries return empty result sets, `gatherChanges`
yields null, the callback is not invoked, the watermark is unchanged, the
"no changes" message is logged, and any number of such cycles leaves the
detector state identical to before. -/
theorem poll_empty_source (st : DetectorState) (cb : Changes → CbOutcome)
    (hrun : st.isRunning = true) (n : Nat) :
    (gatherChanges (.ok []) (.ok [])).1 = .ok none ∧
    (poll st (.ok []) (.ok []) cb).delivered = none ∧
    (poll st (.ok []) (.ok []) cb).noChangesLogged = true ∧
    (poll st (.ok []) (.ok []) cb).state = st ∧
    runPolls st (List.replicate n { qd := .ok [], qp := .ok [], cb := cb }) = st := by
  have hpoll : poll st (.ok []) (.ok []) cb =
      { state := st, delivered := none, noChangesLogged := true,
        errorLogged := false, sqlCmds := [SqlCmd.begin, SqlCmd.commit] } := by
    simp [poll, hrun, gatherChanges]
  refine ⟨rfl, by rw [hpoll], by rw [hpoll], by rw [hpoll], ?_⟩
  induction n with
  | zero => rfl
  | succ k ih =>
    rw [List.replicate_succ, runPolls, hpoll, ih]

/-- Witness for C4: five empty cycles from the sample state leave it intact. -/
theorem poll_empty_source_witness :
    (poll stW5 (.ok []) (.ok []) cbOk).state = stW5 ∧
    runPolls stW5 (List.replicate 5 { qd := .ok [], qp := .ok [], cb := cbOk }) = stW5 := by
  obtain ⟨_, _, _, h4, h5⟩ := poll_empty_source stW5 cbOk rfl 5
  exact ⟨h4, h5⟩

/-- C5: if either per-kind query inside the detection transaction fails, the
detector issues BEGIN then ROLLBACK and propagates the error; the cycle-level
catch logs it, the watermark and whole detector state stay unchanged, and the
loop is still running for the next tick. -/
theorem poll_query_error (st : DetectorState) (qd : Except String (List DripList))
    (qp : Except String (List Project)) (cb : Changes → CbOutcome)
    (hrun : st.isRunning = true)
    (hfail : (∃ e, qd = .error e) ∨ (∃ e, qp = .error e)) :
    (∃ e, (gatherChanges qd qp).1 = .error e) ∧
    (gatherChanges qd qp).2 = [SqlCmd.begin, SqlCmd.rollback] ∧
    (poll st qd qp cb).state = st ∧
    (poll st qd qp cb).errorLogged = true ∧
    (poll st qd qp cb).delivered = none ∧
    (poll st qd qp cb).state.isRunning = true := by
  have hga : ∃ e, gatherChanges qd qp = (.error e, [SqlCmd.begin, SqlCmd.rollback]) := by
    rcases hfail with ⟨e, he⟩ | ⟨e, he⟩
    · subst he
      cases qp with
      | error e2 => exact ⟨e, rfl⟩
      | ok ps => exact ⟨e, rfl⟩
    · subst he
      cases qd with
      | error e2 => exact ⟨e2, rfl⟩
      | ok dls => exact ⟨e, rfl⟩
  obtain ⟨e, hga⟩ := hga
  have hpoll : poll st qd qp cb =
      { state := st, delivered := none, noChangesLogged := false,
        errorLogged := true, sqlCmds := [SqlCmd.begin, SqlCmd.rollback] } := by
    simp [poll, hrun, hga]
  refine ⟨⟨e, by rw [hga]⟩, by rw [hga], by rw [hpoll], by rw [hpoll], by rw [hpoll], ?_⟩
  rw [hpoll]
  exact hrun

/-- Witness for C5: a failing DripLists query at the sample state rolls back
and leaves the state unchanged. -/
theorem poll_query_error_witness :
    (gatherChanges (.error "db down") (.ok ([] : List Project))).2 =
      [SqlCmd.begin, SqlCmd.rollback] ∧
    (poll stW5 (.error "db down") (.ok []) cbOk).state = stW5 := by
  obtain ⟨_, h2, h3, _, _, _⟩ :=
    poll_query_error stW5 (.error "db down") (.ok []) cbOk rfl (Or.inl ⟨_, rfl⟩)
  exact ⟨h2, h3⟩

theorem gatherChanges_nonempty (dls : List DripList) (ps : List Project)
    (hlen : ¬(dls.length = 0 ∧ ps.length = 0)) :
    gatherChanges (.ok dls) (.ok ps) =
      (.ok (some { dripLists := dls, projects := ps,
                   timestamp := listMax (dls.map (fun dl => dl.updatedAt) ++
                     ps.map (fun p => p.updatedAt)) + 1 }),
       [SqlCmd.begin, SqlCmd.commit]) := by
  simp only [gatherChanges, if_neg hlen]

theorem gatherChanges_ok_none {dls : List DripList} {ps : List Project}
    (h : (gatherChanges (.ok dls) (.ok ps)).1 = .ok none) :
    dls = [] ∧ ps = [] := by
  by_cases hc : dls.length = 0 ∧ ps.length = 0
  · exact ⟨List.length_eq_zero.mp hc.1, List.length_eq_zero.mp hc.2⟩
  · simp only [gatherChanges, if_neg hc] at h
    simp at h

theorem poll_of_error {st : DetectorState} {qd : Except String (List DripList)}
    {qp : Except String (List Project)} (cb : Changes → CbOutcome)
    {e : String} {cmds : List SqlCmd}
    (hrun : st.isRunning = true)
    (h : gatherChanges qd qp = (.error e, cmds)) :
    poll st qd qp cb = { state := st, delivered := none, noChangesLogged := false,
                         errorLogged := true, sqlCmds := cmds } := by
  simp [poll, hrun, h]

theorem poll_of_none {st : DetectorState} {qd : Except String (List DripList)}
    {qp : Except String (List Project)} (cb : Changes → CbOutcome)
    {cmds : List SqlCmd}
    (hrun : st.isRunning = true)
    (h : gatherChanges qd qp = (.ok none, cmds)) :
    poll st qd qp cb = { state := st, delivered := none, noChangesLogged := true,
                         errorLogged := false, sqlCmds := cmds } := by
  simp [poll, hrun, h]

theorem poll_of_some {st : DetectorState} {qd : Except String (List DripList)}
    {qp : Except String (List Project)} (cb : Changes → CbOutcome)
    {changes : Changes} {cmds : List SqlCmd}
    (hrun : st.isRunning = true)
    (h : gatherChanges qd qp = (.ok (some changes), cmds)) :
    poll st qd qp cb =
      { state := { st with lastProcessedTime := changes.timestamp },
        delivered := some changes,
        noChangesLogged := false,
        errorLogged := match cb changes with | .ok => false | .err _ => true,
        sqlCmds := cmds } := by
  cases hcb : cb changes with
  | ok => simp [poll, hrun, h, hcb]
  | err e => simp [poll, hrun, h, hcb]

theorem listMax_bounds_row {t : Timestamp} {dls : List DripList} {ps : List Project}
    (h : t ∈ dls.map (fun dl => dl.updatedAt) ++ ps.map (fun p => p.updatedAt)) :
    t < listMax (dls.map (fun dl => dl.updatedAt) ++
      ps.map (fun p => p.updatedAt)) + 1 :=
  Nat.lt_succ_of_le (le_listMax h)

/-- C2: over any detection cycle from any state, the watermark afterwards is
at least the watermark before, and strictly greater whenever the cycle was
running and returned at least one row — under the query precondition that
every returned row's `updatedAt` is at or past the cycle's watermark. -/
theorem watermark_monotone (st : DetectorState)
    (qd : Except String (List DripList)) (qp : Except String (List Project))
    (cb : Changes → CbOutcome)
    (hpre : rowsAtOrPast qd qp st.lastProcessedTime) :
    st.lastProcessedTime ≤ (poll st qd qp cb).state.lastProcessedTime ∧
    (st.isRunning = true → hasRows qd qp →
      st.lastProcessedTime < (poll st qd qp cb).state.lastProcessedTime) := by
  by_cases hrun : st.isRunning = true
  · cases qd with
    | error e =>
      have hga : gatherChanges (.error e) qp = (.error e, [SqlCmd.begin, SqlCmd.rollback]) := by
        cases qp with
        | error e2 => rfl
        | ok ps => rfl
      rw [poll_of_error cb hrun hga]
      refine ⟨Nat.le_refl _, fun _ hrows => ?_⟩
      obtain ⟨dls, ps, hd, _, _⟩ := hrows
      cases hd
    | ok dls =>
      cases qp with
      | error e =>
        have hga : gatherChanges (.ok dls) (.error e) = (.error e, [SqlCmd.begin, SqlCmd.rollback]) := rfl
        rw [poll_of_error cb hrun hga]
        refine ⟨Nat.le_refl _, fun _ hrows => ?_⟩
        obtain ⟨dls2, ps2, _, hp, _⟩ := hrows
        cases hp
      | ok ps =>
        by_cases hemp : dls = [] ∧ ps = []
        · obtain ⟨h1, h2⟩ := hemp
          subst h1; subst h2
          rw [poll_of_none cb hrun gatherChanges_empty_pair]
          refine ⟨Nat.le_refl _, fun _ hrows => ?_⟩
          obtain ⟨dls2, ps2, hd, hp, hne⟩ := hrows
          cases hd; cases hp
          rcases hne with h | h <;> exact (h rfl).elim
        · have hlen : ¬(dls.length = 0 ∧ ps.length = 0) := by
            intro ⟨h1, h2⟩
            exact hemp ⟨List.length_eq_zero.mp h1, List.length_eq_zero.mp h2⟩
          rw [poll_of_some cb hrun (gatherChanges_nonempty dls ps hlen)]
          have hrow : ∃ t ∈ dls.map (fun dl => dl.updatedAt) ++
              ps.map (fun p => p.updatedAt), st.lastProcessedTime ≤ t := by
            rcases not_and_or.mp hemp with hne | hne
            · obtain ⟨d, hd⟩ := List.exists_mem_of_ne_nil dls hne
              exact ⟨d.updatedAt,
                List.mem_append_left _ (List.mem_map_of_mem _ hd),
                hpre.1 dls rfl d hd⟩
            · obtain ⟨p, hp⟩ := List.exists_mem_of_ne_nil ps hne
              exact ⟨p.updatedAt,
                List.mem_append_right _ (List.mem_map_of_mem _ hp),
                hpre.2 ps rfl p hp⟩
          obtain ⟨t, htmem, hle⟩ := hrow
          have hlt : st.lastProcessedTime <
              listMax (dls.map (fun dl => dl.updatedAt) ++
                ps.map (fun p => p.updatedAt)) + 1 :=
            Nat.lt_succ_of_le (Nat.le_trans hle (le_listMax htmem))
          exact ⟨Nat.le_of_lt hlt, fun _ _ => hlt⟩
  · have hf : st.isRunning = false := by
      cases hr : st.isRunning
      · rfl
      · exact absurd hr hrun
    rw [poll_not_running qd qp cb hf]
    exact ⟨Nat.le_refl _, fun h => absurd h hrun⟩

/-- Witness for C2: from the sample state (watermark 5), a cycle returning
one drip list at t=10 strictly advances the watermark. -/
theorem watermark_monotone_witness :
    stW5.lastProcessedTime <
      (poll stW5 (.ok [dlT10]) (.ok []) cbOk).state.lastProcessedTime := by
  have h := watermark_monotone stW5 (.ok [dlT10]) (.ok []) cbOk
    (by constructor
        · intro dls hd dl hm
          cases hd
          simp at hm
          rw [hm]
          decide
        · intro ps hp p hm
          cases hp
          simp at hm)
  exact h.2 rfl ⟨[dlT10], [], rfl, rfl, Or.inl (by simp)⟩

/-- C1 counterexample: the claim "if the callback throws, the watermark is
not advanced" is false on the code.  From watermark 5, a cycle returning one
drip list at t=10 with a throwing callback leaves the watermark at 11, not 5:
`poll` assigns `lastProcessedTime = changes.timestamp` (line 112) before
`await onChangesDetected(changes)` (line 114). -/
theorem poll_watermark_advances_on_callback_throw :
    cbThrow { dripLists := [dlT10], projects := [],
              timestamp := 11 } = .err "sync failed" ∧
    (poll stW5 (.ok [dlT10]) (.ok []) cbThrow).errorLogged = true ∧
    (poll stW5 (.ok [dlT10]) (.ok []) cbThrow).state.lastProcessedTime = 11 ∧
    ¬((poll stW5 (.ok [dlT10]) (.ok []) cbThrow).state.lastProcessedTime =
        stW5.lastProcessedTime) := by
  refine ⟨rfl, rfl, rfl, ?_⟩
  decide

/-- C1 amended: the detector adopts the cycle's new watermark immediately
BEFORE invoking the callback; if the callback throws, the cycle's catch logs
the error but the watermark remains advanced strictly past every row of the
change set, so those rows are not re-read by a later cycle's
`updatedAt >= watermark` filter — per-change-set delivery to the callback is
at most once, not at least once. -/
theorem poll_advances_watermark_before_callback
    (st : DetectorState) (qd : Except String (List DripList))
    (qp : Except String (List Project)) (cb : Changes → CbOutcome)
    (changes : Changes)
    (hrun : st.isRunning = true)
    (hch : (gatherChanges qd qp).1 = .ok (some changes)) :
    (poll st qd qp cb).state.lastProcessedTime = changes.timestamp ∧
    (poll st qd qp cb).delivered = some changes ∧
    (∀ e, cb changes = .err e → (poll st qd qp cb).errorLogged = true) ∧
    (∀ dl ∈ changes.dripLists,
      dl.updatedAt < (poll st qd qp cb).state.lastProcessedTime) ∧
    (∀ p ∈ changes.projects,
      p.updatedAt < (poll st qd qp cb).state.lastProcessedTime) := by
  obtain ⟨dls, ps, hqd, hqp, hne, hcheq⟩ := gatherChanges_ok_some hch
  subst hqd; subst hqp
  have hlen : ¬(dls.length = 0 ∧ ps.length = 0) := by
    intro ⟨h1, h2⟩
    exact hne ⟨List.length_eq_zero.mp h1, List.length_eq_zero.mp h2⟩
  have hpair := gatherChanges_nonempty dls ps hlen
  have hch2 : gatherChanges (.ok dls) (.ok ps) =
      (.ok (some changes), [SqlCmd.begin, SqlCmd.commit]) := by
    rw [hpair, hcheq]
  rw [poll_of_some cb hrun hch2]
  refine ⟨rfl, rfl, ?_, ?_, ?_⟩
  · intro e he
    simp [he]
  · intro dl hdl
    rw [hcheq] at hdl ⊢
    exact listMax_bounds_row (List.mem_append_left _ (List.mem_map_of_mem _ hdl))
  · intro p hp
    rw [hcheq] at hp ⊢
    exact listMax_bounds_row (List.mem_append_right _ (List.mem_map_of_mem _ hp))

/-- Witness for amended C1: concrete cycle from watermark 5 with one row at
t=10 and a throwing callback — the watermark ends at 11 and the row's
timestamp 10 lies strictly below it. -/
theorem poll_advances_watermark_before_callback_witness :
    (poll stW5 (.ok [dlT10]) (.ok []) cbThrow).state.lastProcessedTime = 11 ∧
    dlT10.updatedAt < (poll stW5 (.ok [dlT10]) (.ok []) cbThrow).state.lastProcessedTime := by
  have h := poll_advances_watermark_before_callback stW5 (.ok [dlT10]) (.ok [])
    cbThrow { dripLists := [dlT10], projects := [], timestamp := 11 } rfl rfl
  exact ⟨by rw [h.1], h.2.2.2.1 dlT10 (by simp)⟩

/-- The `SyncMetrics` type as used by the single-chain synchronizer
(`src/unnamed/part_003`, lines 13-17). -/
structure SyncMetrics where
  lastSyncTime : Timestamp
  lastSuccessfulSync : Option Timestamp
  totalProcessedRecords : Nat
deriving Repr, DecidableEq

/-- Initial metrics value (`lastSyncTime: new Date(0)`). -/
def initialMetrics : SyncMetrics :=
  { lastSyncTime := 0, lastSuccessfulSync := none, totalProcessedRecords := 0 }

/-- Document shape uploaded to the `drip_lists` index
(`src/unnamed/part_003`, lines 25-33). -/
structure DripListDoc where
  id : String
  name : String
  type : String
  updatedAt : Timestamp
  description : String
  ownerAddress : String
  ownerAccountId : String
deriving Repr, DecidableEq

def toDripListDoc (dl : DripList) : DripListDoc :=
  { id := dl.id, name := dl.name, type := "drip_list", updatedAt := dl.updatedAt,
    description := dl.description, ownerAddress := dl.ownerAddress,
    ownerAccountId := dl.ownerAccountId }

/-- Document shape uploaded to the `projects` index
(`src/unnamed/part_003`, lines 37-46). -/
structure ProjectDoc where
  id : String
  name : String
  type : String
  updatedAt : Timestamp
  description : String
  ownerAddress : String
  ownerAccountId : String
  url : String
deriving Repr, DecidableEq

def toProjectDoc (p : Project) : ProjectDoc :=
  { id := p.id, name := p.name, type := "project", updatedAt := p.updatedAt,
    description := p.description, ownerAddress := p.ownerAddress,
    ownerAccountId := p.ownerAccountId, url := p.url }

/-- Terminal status of a MeiliSearch asynchronous task. -/
inductive TaskStatus where
  | succeeded
  | failed
  | canceled
deriving Repr, DecidableEq

/-- A completed task as returned by `waitForTask`. -/
structure MeiliTask where
  status : TaskStatus
  errorDetail : String
deriving Repr, DecidableEq

/-- External outcomes consumed by one `handleChanges` invocation: the two
`updateDocuments` submissions (each either a task uid or a rejection), the
`waitForTask` results, the detector `stop()` outcome used by the catch
block, and the wall clock read by `new Date()`. -/
structure ApplyEnv where
  dripListsUpsert : Except String Nat
  projectsUpsert : Except String Nat
  waitForTask : Nat → Except String MeiliTask
  stopResult : Except String Unit
  now : Timestamp

/-- Mutable state closed over by `createMeiliSearchSynchronizer`
(`src/unnamed/part_003`, lines 11-17). -/
structure SyncState where
  isRunning : Bool
  metrics : SyncMetrics
deriving Repr, DecidableEq

/-- Observable result of one `handleChanges` invocation. -/
structure HandleResult where
  state : SyncState
  thrown : Option String
  stopCalled : Bool
  stopWarnLogged : Bool
  submittedDripLists : List DripListDoc
  submittedProjects : List ProjectDoc
deriving Repr, DecidableEq

/-- Whether the `await changeDetection.stop().catch(...)` call observed a
stop error (which it swallows into a warning log). -/
def stopFailed (env : ApplyEnv) : Bool :=
  match env.stopResult with
  | .ok _ => false
  | .error _ => true

/-- The first error thrown inside the try block of `handleChanges`
(`src/unnamed/part_003`, lines 20-65), if any: a rejected `updateDocuments`,
a rejected `waitForTask`, or a terminal task status of `failed`. -/
def firstFailure (env : ApplyEnv) : Option String :=
  match env.dripListsUpsert, env.projectsUpsert with
  | .error e, _ => some e
  | .ok _, .error e => some e
  | .ok dlUid, .ok pUid =>
    match env.waitForTask dlUid, env.waitForTask pUid with
    | .error e, _ => some e
    | .ok _, .error e => some e
    | .ok dlTask, .ok pTask =>
      if dlTask.status = .failed then
        some ("Drip lists task failed: " ++ dlTask.errorDetail)
      else if pTask.status = .failed then
        some ("Projects task failed: " ++ pTask.errorDetail)
      else none

namespace Sync

/-- The catch block of `handleChanges` (`src/unnamed/part_003`,
lines 81-105): log, flip `isRunning` off, stop the detector swallowing a
stop error into a warning, re-throw the original error. -/
def failPath (st : SyncState) (env : ApplyEnv) (e : String)
    (docsD : List DripListDoc) (docsP : List ProjectDoc) : HandleResult :=
  { state := { st with isRunning := false },
    thrown := some e,
    stopCalled := true,
    stopWarnLogged := stopFailed env,
    submittedDripLists := docsD,
    submittedProjects := docsP }

/-- Embedding of `handleChanges` (`src/unnamed/part_003`, lines 19-106). -/
def handleChanges (st : SyncState) (env : ApplyEnv) (changes : Changes) :
    HandleResult :=
  let docsD := changes.dripLists.map toDripListDoc
  let docsP := changes.projects.map toProjectDoc
  match env.dripListsUpsert, env.projectsUpsert with
  | .error e, _ => failPath st env e docsD docsP
  | .ok _, .error e => failPath st env e docsD docsP
  | .ok dlUid, .ok pUid =>
    match env.waitForTask dlUid, env.waitForTask pUid with
    | .error e, _ => failPath st env e docsD docsP
    | .ok _, .error e => failPath st env e docsD docsP
    | .ok dlTask, .ok pTask =>
      if dlTask.status = .failed then
        failPath st env ("Drip lists task failed: " ++ dlTask.errorDetail)
          docsD docsP
      else if pTask.status = .failed then
        failPath st env ("Projects task failed: " ++ pTask.errorDetail)
          docsD docsP
      else
        { state := { st with metrics :=
            { lastSyncTime := changes.timestamp,
              lastSuccessfulSync := some env.now,
              totalProcessedRecords := st.metrics.totalProcessedRecords +
                (changes.dripLists.length + changes.projects.length) } },
          thrown := none,
          stopCalled := false,
          stopWarnLogged := false,
          submittedDripLists := docsD,
          submittedProjects := docsP }

/-- Iterated `handleChanges` invocations (one per delivered change set). -/
def runHandler (st : SyncState) : List (ApplyEnv × Changes) → SyncState
  | [] => st
  | (env, ch) :: rest => runHandler (handleChanges st env ch).state rest

/-- Observable result of the synchronizer's `start`
(`src/unnamed/part_003`, lines 179-216). -/
structure StartResult where
  state : SyncState
  warned : Bool
  indicesInitialized : Bool
  detectorStartInvoked : Bool
  thrown : Option String
  stopCalled : Bool
deriving Repr, DecidableEq

/-- Embedding of the synchronizer's `start` (`src/unnamed/part_003`,
lines 179-216); `initResult` and `detStartResult` are the outcomes of
`initializeIndices()` and `changeDetection.start(handleChanges)`. -/
def start (st : SyncState) (initResult : Except String Unit)
    (detStartResult : Except String Unit) : StartResult :=
  if st.isRunning then
    { state := st, warned := true, indicesInitialized := false,
      detectorStartInvoked := false, thrown := none, stopCalled := false }
  else
    match initResult with
    | .error e =>
      { state := { st with isRunning := false }, warned := false,
        indicesInitialized := false, detectorStartInvoked := false,
        thrown := some e, stopCalled := true }
    | .ok _ =>
      match detStartResult with
      | .error e =>
        { state := { st with isRunning := false }, warned := false,
          indicesInitialized := true, detectorStartInvoked := true,
          thrown := some e, stopCalled := true }
      | .ok _ =>
        { state := { st with isRunning := true }, warned := false,
          indicesInitialized := true, detectorStartInvoked := true,
          thrown := none, stopCalled := false }

end Sync

theorem handleChanges_eq_failPath (st : SyncState) (env : ApplyEnv)
    (changes : Changes) (e : String) (hfail : firstFailure env = some e) :
    Sync.handleChanges st env changes =
      Sync.failPath st env e (changes.dripLists.map toDripListDoc)
        (changes.projects.map toProjectDoc) := by
  obtain ⟨du, pu, wt, sr, nw⟩ := env
  cases du with
  | error e2 =>
    simp only [firstFailure, Option.some_inj] at hfail
    subst hfail
    rfl
  | ok dlUid =>
    cases pu with
    | error e2 =>
      simp only [firstFailure, Option.some_inj] at hfail
      subst hfail
      rfl
    | ok pUid =>
      cases hw1 : wt dlUid with
      | error e2 =>
        simp only [firstFailure, hw1, Option.some_inj] at hfail
        subst hfail
        simp [Sync.handleChanges, hw1]
      | ok dlTask =>
        cases hw2 : wt pUid with
        | error e2 =>
          simp only [firstFailure, hw1, hw2, Option.some_inj] at hfail
          subst hfail
          simp [Sync.handleChanges, hw1, hw2]
        | ok pTask =>
          by_cases h1 : dlTask.status = .failed
          · simp only [firstFailure, hw1, hw2, if_pos h1, Option.some_inj] at hfail
            subst hfail
            simp [Sync.handleChanges, hw1, hw2, if_pos h1]
          · by_cases h2 : pTask.status = .failed
            · simp only [firstFailure, hw1, hw2, if_neg h1, if_pos h2,
                Option.some_inj] at hfail
              subst hfail
              simp [Sync.handleChanges, hw1, hw2, if_neg h1, if_pos h2]
            · simp only [firstFailure, hw1, hw2, if_neg h1, if_neg h2] at hfail
              cases hfail

theorem handleChanges_eq_success (st : SyncState) (env : ApplyEnv)
    (changes : Changes) (hok : firstFailure env = none) :
    Sync.handleChanges st env changes =
      { state := { st with metrics :=
          { lastSyncTime := changes.timestamp,
            lastSuccessfulSync := some env.now,
            totalProcessedRecords := st.metrics.totalProcessedRecords +
              (changes.dripLists.length + changes.projects.length) } },
        thrown := none, stopCalled := false, stopWarnLogged := false,
        submittedDripLists := changes.dripLists.map toDripListDoc,
        submittedProjects := changes.projects.map toProjectDoc } := by
  obtain ⟨du, pu, wt, sr, nw⟩ := env
  cases du with
  | error e2 =>
    simp only [firstFailure] at hok
    exact Option.noConfusion hok
  | ok dlUid =>
    cases pu with
    | error e2 =>
      simp only [firstFailure] at hok
      exact Option.noConfusion hok
    | ok pUid =>
      cases hw1 : wt dlUid with
      | error e2 =>
        simp only [firstFailure, hw1] at hok
        exact Option.noConfusion hok
      | ok dlTask =>
        cases hw2 : wt pUid with
        | error e2 =>
          simp only [firstFailure, hw1, hw2] at hok
          exact Option.noConfusion hok
        | ok pTask =>
          by_cases h1 : dlTask.status = .failed
          · simp only [firstFailure, hw1, hw2, if_pos h1] at hok
            exact Option.noConfusion hok
          · by_cases h2 : pTask.status = .failed
            · simp only [firstFailure, hw1, hw2, if_neg h1, if_pos h2] at hok
              exact Option.noConfusion hok
            · simp [Sync.handleChanges, hw1, hw2, if_neg h1, if_neg h2]

/-- C6: whenever a document upsert rejects, a task wait fails, or either
index task reaches terminal status `failed`, `handleChanges` flips the
synchronizer's running flag to false, calls `changeDetection.stop()`
(swallowing a stop error into a warning log), re-throws the original error,
and leaves all metrics at their pre-failure values. -/
theorem handleChanges_failure_halts (st : SyncState) (env : ApplyEnv)
    (changes : Changes) (e : String) (hfail : firstFailure env = some e) :
    (Sync.handleChanges st env changes).state.isRunning = false ∧
    (Sync.handleChanges st env changes).stopCalled = true ∧
    (Sync.handleChanges st env changes).thrown = some e ∧
    (Sync.handleChanges st env changes).state.metrics = st.metrics ∧
    (Sync.handleChanges st env changes).stopWarnLogged = stopFailed env := by
  rw [handleChanges_eq_failPath st env changes e hfail]
  exact ⟨rfl, rfl, rfl, rfl, rfl⟩

/-- Environment whose drip-lists index task reports terminal status
`failed`; `stop()` itself also fails, so the warning path is exercised. -/
def envTaskFail : ApplyEnv :=
  { dripListsUpsert := .ok 1, projectsUpsert := .ok 2,
    waitForTask := fun uid =>
      if uid = 1 then .ok { status := .failed, errorDetail := "index broken" }
      else .ok { status := .succeeded, errorDetail := "" },
    stopResult := .error "stop timeout", now := 100 }

/-- Environment in which every external call succeeds. -/
def envOk : ApplyEnv :=
  { dripListsUpsert := .ok 1, projectsUpsert := .ok 2,
    waitForTask := fun _ => .ok { status := .succeeded, errorDetail := "" },
    stopResult := .ok (), now := 50 }

/-- Sample running synchronizer state with initial metrics. -/
def sst0 : SyncState := { isRunning := true, metrics := initialMetrics }

/-- Sample change set delivered to the synchronizer. -/
def ch0 : Changes := { dripLists := [dlT10], projects := [pT20], timestamp := 21 }

/-- Witness for C6 at a concrete input: a failed drip-lists task halts the
synchronizer, keeps the metrics, and turns the failing stop into a warning. -/
theorem handleChanges_failure_halts_witness :
    firstFailure envTaskFail = some "Drip lists task failed: index broken" ∧
    (Sync.handleChanges sst0 envTaskFail ch0).state.isRunning = false ∧
    (Sync.handleChanges sst0 envTaskFail ch0).stopCalled = true ∧
    (Sync.handleChanges sst0 envTaskFail ch0).state.metrics = initialMetrics ∧
    (Sync.handleChanges sst0 envTaskFail ch0).stopWarnLogged = true := by
  have h := handleChanges_failure_halts sst0 envTaskFail ch0
    "Drip lists task failed: index broken" rfl
  exact ⟨rfl, h.1, h.2.1, h.2.2.2.1, h.2.2.2.2⟩

/-- C8: calling `start` on a change detector or a synchronizer that is
already running logs a warning and returns with no further effect: the
state is unchanged, no immediate detection cycle runs, no timer is created,
and no index initialization or detector start is performed. -/
theorem start_idempotent_while_running (dst : DetectorState) (i : CycleInput)
    (sst : SyncState) (initResult detStartResult : Except String Unit)
    (hd : dst.isRunning = true) (hs : sst.isRunning = true) :
    Detector.start dst i =
      { state := dst, warned := true, initialCycle := none } ∧
    Sync.start sst initResult detStartResult =
      { state := sst, warned := true, indicesInitialized := false,
        detectorStartInvoked := false, thrown := none, stopCalled := false } := by
  constructor
  · simp [Detector.start, hd]
  · simp [Sync.start, hs]

/-- Witness for C8 at concrete running states. -/
theorem start_idempotent_while_running_witness :
    Detector.start stW5 { qd := .ok [dlT10], qp := .ok [], cb := cbOk } =
      { state := stW5, warned := true, initialCycle := none } ∧
    Sync.start sst0 (.ok ()) (.ok ()) =
      { state := sst0, warned := true, indicesInitialized := false,
        detectorStartInvoked := false, thrown := none, stopCalled := false } :=
  start_idempotent_while_running stW5 { qd := .ok [dlT10], qp := .ok [], cb := cbOk }
    sst0 (.ok ()) (.ok ()) rfl rfl

/-- JavaScript `"str".split('/')` on a list of characters: splits at every
occurrence of '/', always yielding at least one (possibly empty) segment;
`[].split` of the empty string is `[""]`. -/
def splitSlash : List Char → List (List Char)
  | [] => [[]]
  | c :: rest =>
    if c = '/' then [] :: splitSlash rest
    else
      match splitSlash rest with
      | [] => [[c]]
      | s :: ss => (c :: s) :: ss

/-- JavaScript `s.split('/')` on a Lean string. -/
def jsSplit (s : String) : List String :=
  (splitSlash s.toList).map (fun l => String.mk l)

namespace MC

/-- Project verification states of the multi-chain schema
(`src/unnamed/part_001`, line 141). -/
inductive VerificationStatus where
  | claimed
  | unclaimed
  | pending_metadata
deriving Repr, DecidableEq

/-- The multi-chain `DripList` row type (`src/unnamed/part_001`,
lines 118-126). -/
structure DripList where
  id : String
  name : String
  description : String
  ownerAddress : String
  ownerAccountId : String
  chain : String
  isVisible : Bool
deriving Repr, DecidableEq

/-- The multi-chain `Project` row type (`src/unnamed/part_001`,
lines 128-142). -/
structure Project where
  id : String
  url : String
  name : String
  ownerAddress : String
  ownerAccountId : String
  avatarCid : String
  emoji : String
  color : String
  chain : String
  ownerName : String
  repoName : String
  isVisible : Bool
  verificationStatus : VerificationStatus
deriving Repr, DecidableEq

/-- The multi-chain `Changes` type (`src/unnamed/part_001`, lines 144-147):
no timestamp field. -/
structure Changes where
  dripLists : List DripList
  projects : List Project
deriving Repr, DecidableEq

/-- Document uploaded to `drip_lists` by the multi-chain handler
(`src/unnamed/part_003`, lines 276-285). -/
structure DripListDoc where
  id : String
  name : String
  type : String
  description : String
  ownerAddress : String
  ownerAccountId : String
  chain : String
  isVisible : Bool
deriving Repr, DecidableEq

def toDripListDoc (dl : DripList) : DripListDoc :=
  { id := dl.id, name := dl.name, type := "drip_list",
    description := dl.description, ownerAddress := dl.ownerAddress,
    ownerAccountId := dl.ownerAccountId, chain := dl.chain,
    isVisible := dl.isVisible }

/-- Document uploaded to `projects` by the multi-chain handler
(`src/unnamed/part_003`, lines 289-304).  `repoName` is
`p.name.split('/')[1]`, which is `undefined` (modelled `none`) when the
split yields fewer than two segments. -/
structure ProjectDoc where
  id : String
  name : String
  type : String
  ownerAddress : String
  ownerAccountId : String
  url : String
  avatarCid : String
  emoji : String
  color : String
  chain : String
  ownerName : String
  repoName : Option String
  isVisible : Bool
  verificationStatus : VerificationStatus
deriving Repr, DecidableEq

/-- Translation of one project row into its index document
(`src/unnamed/part_003`, lines 289-304).  `split('/')` always yields at
least one segment, so the `[0]` access is total (`getD` with an unused
default). -/
def toProjectDoc (p : Project) : ProjectDoc :=
  { id := p.id, name := p.name, type := "project",
    ownerAddress := p.ownerAddress, ownerAccountId := p.ownerAccountId,
    url := p.url, avatarCid := p.avatarCid, emoji := p.emoji,
    color := p.color, chain := p.chain,
    ownerName := (jsSplit p.name).getD 0 "",
    repoName := (jsSplit p.name)[1]?,
    isVisible := p.isVisible,
    verificationStatus := p.verificationStatus }

/-- Multi-chain `SyncMetrics` (`src/src/synchronizer/types.ts`): no
`lastSuccessfulSync` field. -/
structure Metrics where
  lastSyncTime : Timestamp
  totalProcessedRecords : Nat
deriving Repr, DecidableEq

/-- Multi-chain synchronizer state (`src/unnamed/part_003`,
lines 263-268). -/
structure State where
  isRunning : Bool
  metrics : Metrics
deriving Repr, DecidableEq

/-- Observable result of one multi-chain `handleChanges` invocation. -/
structure HandleResult where
  state : State
  thrown : Option String
  stopCalled : Bool
  stopWarnLogged : Bool
  submittedDripLists : List DripListDoc
  submittedProjects : List ProjectDoc
deriving Repr, DecidableEq

/-- The catch block of the multi-chain `handleChanges`
(`src/unnamed/part_003`, lines 336-360). -/
def failPath (st : State) (env : ApplyEnv) (e : String)
    (docsD : List DripListDoc) (docsP : List ProjectDoc) : HandleResult :=
  { state := { st with isRunning := false },
    thrown := some e,
    stopCalled := true,
    stopWarnLogged := stopFailed env,
    submittedDripLists := docsD,
    submittedProjects := docsP }

/-- Embedding of the multi-chain `handleChanges` (`src/unnamed/part_003`,
lines 270-361).  On success (lines 325-327) it OVERWRITES
`totalProcessedRecords` with the current batch's count and sets
`lastSyncTime` to the wall clock (`new Date()`), not to any change-set
timestamp. -/
def handleChanges (st : State) (env : ApplyEnv) (changes : Changes) :
    HandleResult :=
  let docsD := changes.dripLists.map toDripListDoc
  let docsP := changes.projects.map toProjectDoc
  match env.dripListsUpsert, env.projectsUpsert with
  | .error e, _ => failPath st env e docsD docsP
  | .ok _, .error e => failPath st env e docsD docsP
  | .ok dlUid, .ok pUid =>
    match env.waitForTask dlUid, env.waitForTask pUid with
    | .error e, _ => failPath st env e docsD docsP
    | .ok _, .error e => failPath st env e docsD docsP
    | .ok dlTask, .ok pTask =>
      if dlTask.status = .failed then
        failPath st env ("Drip lists task failed: " ++ dlTask.errorDetail)
          docsD docsP
      else if pTask.status = .failed then
        failPath st env ("Projects task failed: " ++ pTask.errorDetail)
          docsD docsP
      else
        { state := { st with metrics :=
            { lastSyncTime := env.now,
              totalProcessedRecords :=
                changes.dripLists.length + changes.projects.length } },
          thrown := none,
          stopCalled := false,
          stopWarnLogged := false,
          submittedDripLists := docsD,
          submittedProjects := docsP }

/-- Iterated multi-chain `handleChanges` invocations. -/
def runHandler (st : State) : List (ApplyEnv × Changes) → State
  | [] => st
  | (env, ch) :: rest => runHandler (handleChanges st env ch).state rest

end MC

theorem mc_handleChanges_eq_success (st : MC.State) (env : ApplyEnv)
    (changes : MC.Changes) (hok : firstFailure env = none) :
    MC.handleChanges st env changes =
      { state := { st with metrics :=
          { lastSyncTime := env.now,
            totalProcessedRecords :=
              changes.dripLists.length + changes.projects.length } },
        thrown := none, stopCalled := false, stopWarnLogged := false,
        submittedDripLists := changes.dripLists.map MC.toDripListDoc,
        submittedProjects := changes.projects.map MC.toProjectDoc } := by
  obtain ⟨du, pu, wt, sr, nw⟩ := env
  cases du with
  | error e2 =>
    simp only [firstFailure] at hok
    exact Option.noConfusion hok
  | ok dlUid =>
    cases pu with
    | error e2 =>
      simp only [firstFailure] at hok
      exact Option.noConfusion hok
    | ok pUid =>
      cases hw1 : wt dlUid with
      | error e2 =>
        simp only [firstFailure, hw1] at hok
        exact Option.noConfusion hok
      | ok dlTask =>
        cases hw2 : wt pUid with
        | error e2 =>
          simp only [firstFailure, hw1, hw2] at hok
          exact Option.noConfusion hok
        | ok pTask =>
          by_cases h1 : dlTask.status = .failed
          · simp only [firstFailure, hw1, hw2, if_pos h1] at hok
            exact Option.noConfusion hok
          · by_cases h2 : pTask.status = .failed
            · simp only [firstFailure, hw1, hw2, if_neg h1, if_pos h2] at hok
              exact Option.noConfusion hok
            · simp [MC.handleChanges, hw1, hw2, if_neg h1, if_neg h2]

theorem runHandler_success_total (st : SyncState) (l : List (ApplyEnv × Changes))
    (hok : ∀ pr ∈ l, firstFailure pr.1 = none) :
    (Sync.runHandler st l).metrics.totalProcessedRecords =
      st.metrics.totalProcessedRecords +
        (l.map (fun pr => pr.2.dripLists.length + pr.2.projects.length)).sum := by
  revert hok
  induction l generalizing st with
  | nil =>
    intro hok
    simp [Sync.runHandler]
  | cons q rest ih =>
    intro hok
    obtain ⟨env, ch⟩ := q
    have hsucc := handleChanges_eq_success st env ch
      (hok (env, ch) (List.mem_cons_self _ _))
    simp only [Sync.runHandler]
    rw [hsucc, ih _ (fun pr hm => hok pr (List.mem_cons_of_mem _ hm))]
    simp only [List.map_cons, List.sum_cons]
    omega

theorem runHandler_success_last (st : SyncState) (l : List (ApplyEnv × Changes))
    (hok : ∀ pr ∈ l, firstFailure pr.1 = none) (pr : ApplyEnv × Changes)
    (hlast : l.getLast? = some pr) :
    (Sync.runHandler st l).metrics.lastSyncTime = pr.2.timestamp := by
  revert hok hlast
  induction l generalizing st with
  | nil =>
    intro hok hlast
    cases hlast
  | cons q rest ih =>
    intro hok hlast
    obtain ⟨env, ch⟩ := q
    have hsucc := handleChanges_eq_success st env ch
      (hok (env, ch) (List.mem_cons_self _ _))
    simp only [Sync.runHandler]
    rw [hsucc]
    cases rest with
    | nil =>
      have hpr : pr = (env, ch) := by
        simpa using hlast.symm
      subst hpr
      simp [Sync.runHandler]
    | cons q2 rest2 =>
      rw [List.getLast?_cons_cons] at hlast
      exact ih _ (fun pr2 hm => hok pr2 (List.mem_cons_of_mem _ hm)) hlast

/-- Multi-chain project row used by concrete inputs. -/
def mcProjA : MC.Project :=
  { id := "p1", url := "u", name := "alice/repo", ownerAddress := "0xa",
    ownerAccountId := "1", avatarCid := "cid", emoji := "e", color := "#fff",
    chain := "mainnet", ownerName := "", repoName := "", isVisible := true,
    verificationStatus := .claimed }

/-- Multi-chain change set with one project. -/
def mcCh1 : MC.Changes := { dripLists := [], projects := [mcProjA] }

/-- Multi-chain change set with two projects. -/
def mcCh2 : MC.Changes := { dripLists := [], projects := [mcProjA, mcProjA] }

/-- Running multi-chain synchronizer state with zeroed metrics. -/
def mcSt0 : MC.State :=
  { isRunning := true, metrics := { lastSyncTime := 0, totalProcessedRecords := 0 } }

/-- C7 counterexample: the claim is false for the multi-chain change handler
it also cites.  After two fully successful applies of change sets with 1 and
2 entities, `totalProcessedRecords` is 2 (the last batch's count, assigned
with `=` at line 326), not the sum 3. -/
theorem mc_totalProcessedRecords_not_cumulative :
    firstFailure envOk = none ∧
    (MC.runHandler mcSt0 [(envOk, mcCh1), (envOk, mcCh2)]).metrics.totalProcessedRecords = 2 ∧
    (mcCh1.dripLists.length + mcCh1.projects.length) +
      (mcCh2.dripLists.length + mcCh2.projects.length) = 3 ∧
    ¬((MC.runHandler mcSt0 [(envOk, mcCh1), (envOk, mcCh2)]).metrics.totalProcessedRecords =
        (mcCh1.dripLists.length + mcCh1.projects.length) +
          (mcCh2.dripLists.length + mcCh2.projects.length)) := by
  refine ⟨rfl, rfl, rfl, ?_⟩
  intro habs
  have h2 : (2 : Nat) = 3 := habs
  cases h2

/-- C7 amended: for the single-chain synchronizer's change handler, after N
successful applies `totalProcessedRecords` grows by the sum over those
change sets of `dripLists.length + projects.length` and `lastSyncTime`
equals the timestamp of the most recent change set; metrics are updated only
when neither task reported status `failed` (on any failure they are left
unchanged).  The multi-chain variant's handler instead overwrites
`totalProcessedRecords` with the latest batch's count and sets
`lastSyncTime` to the wall clock. -/
theorem handler_metrics_after_success (st : SyncState)
    (l : List (ApplyEnv × Changes))
    (hok : ∀ pr ∈ l, firstFailure pr.1 = none)
    (mst : MC.State) (menv : ApplyEnv) (mch : MC.Changes)
    (hmok : firstFailure menv = none) :
    (Sync.runHandler st l).metrics.totalProcessedRecords =
      st.metrics.totalProcessedRecords +
        (l.map (fun pr => pr.2.dripLists.length + pr.2.projects.length)).sum ∧
    (∀ pr, l.getLast? = some pr →
      (Sync.runHandler st l).metrics.lastSyncTime = pr.2.timestamp) ∧
    (∀ env ch e, firstFailure env = some e →
      (Sync.handleChanges st env ch).state.metrics = st.metrics) ∧
    (MC.handleChanges mst menv mch).state.metrics =
      { lastSyncTime := menv.now,
        totalProcessedRecords := mch.dripLists.length + mch.projects.length } := by
  refine ⟨runHandler_success_total st l hok,
    fun pr h => runHandler_success_last st l hok pr h, ?_, ?_⟩
  · intro env ch e hf
    rw [handleChanges_eq_failPath st env ch e hf]
    rfl
  · rw [mc_handleChanges_eq_success mst menv mch hmok]

/-- Witness for amended C7 at concrete inputs: one successful single-chain
apply of a change set with 2 entities takes `totalProcessedRecords` from 0
to 2 and `lastSyncTime` to the change set's timestamp 21; one successful
multi-chain apply of a 1-entity batch sets `totalProcessedRecords` to 1. -/
theorem handler_metrics_after_success_witness :
    (Sync.runHandler sst0 [(envOk, ch0)]).metrics.totalProcessedRecords = 2 ∧
    (Sync.runHandler sst0 [(envOk, ch0)]).metrics.lastSyncTime = 21 ∧
    (MC.handleChanges mcSt0 envOk mcCh1).state.metrics.totalProcessedRecords = 1 := by
  have h := handler_metrics_after_success sst0 [(envOk, ch0)]
    (by
      intro pr hm
      simp only [List.mem_singleton] at hm
      rw [hm]
      rfl)
    mcSt0 envOk mcCh1 rfl
  refine ⟨?_, ?_, ?_⟩
  · rw [h.1]
    rfl
  · rw [h.2.1 (envOk, ch0) rfl]
    rfl
  · rw [h.2.2.2]
    rfl

/-- A small object heap for `SyncMetrics` objects, used to model JavaScript
reference semantics: an object is a heap cell, addresses index the list. -/
abbrev MetricsHeap := List SyncMetrics

/-- Read the object at address `r` (total with an arbitrary default; all
uses stay within the allocated heap). -/
def readRef (h : MetricsHeap) (r : Nat) : SyncMetrics := h.getD r initialMetrics

/-- Mutate the object at address `r` in place. -/
def writeRef (h : MetricsHeap) (r : Nat) (v : SyncMetrics) : MetricsHeap :=
  h.set r v

/-- Embedding of `getMetrics = (): SyncMetrics => ({...metrics})`
(`src/unnamed/part_003`, line 244): the spread allocates a FRESH object
whose fields are copied from the live `metrics` object and returns its
address. -/
def getMetrics (h : MetricsHeap) (live : Nat) : MetricsHeap × Nat :=
  (h ++ [readRef h live], h.length)

/-- The success-path metrics mutation of `handleChanges`
(`src/unnamed/part_003`, lines 68-71), acting on the live metrics object. -/
def applySuccessMetrics (h : MetricsHeap) (live : Nat) (ts nw : Timestamp)
    (count : Nat) : MetricsHeap :=
  writeRef h live
    { lastSyncTime := ts, lastSuccessfulSync := some nw,
      totalProcessedRecords := (readRef h live).totalProcessedRecords + count }

theorem readRef_append_last (h : MetricsHeap) (v : SyncMetrics) :
    readRef (h ++ [v]) h.length = v := by
  unfold readRef
  rw [List.getD_eq_getElem?_getD, List.getElem?_append_right (Nat.le_refl _)]
  simp

theorem readRef_append_lt (h : MetricsHeap) (v : SyncMetrics) (r : Nat)
    (hr : r < h.length) : readRef (h ++ [v]) r = readRef h r := by
  unfold readRef
  rw [List.getD_eq_getElem?_getD, List.getElem?_append_left hr,
    List.getD_eq_getElem?_getD]

theorem readRef_writeRef_ne (h : MetricsHeap) (v : SyncMetrics) (r s : Nat)
    (hne : r ≠ s) : readRef (writeRef h r v) s = readRef h s := by
  unfold readRef writeRef
  rw [List.getD_eq_getElem?_getD, List.getElem?_set_ne hne,
    List.getD_eq_getElem?_getD]

/-- C9: `getMetrics()` returns a fresh snapshot copy of the current metrics,
never the live object: the returned address differs from the live one, its
contents equal the metrics at call time, a later successful-sync update of
the live object leaves the snapshot unchanged, and mutating the snapshot
does not change what a subsequent `getMetrics()` call returns. -/
theorem getMetrics_returns_snapshot (h : MetricsHeap) (live : Nat)
    (hlive : live < h.length) (v : SyncMetrics) (ts nw : Timestamp)
    (count : Nat) :
    (getMetrics h live).2 ≠ live ∧
    readRef (getMetrics h live).1 (getMetrics h live).2 = readRef h live ∧
    readRef (applySuccessMetrics (getMetrics h live).1 live ts nw count)
        (getMetrics h live).2 =
      readRef (getMetrics h live).1 (getMetrics h live).2 ∧
    readRef
        (getMetrics (writeRef (getMetrics h live).1 (getMetrics h live).2 v) live).1
        (getMetrics (writeRef (getMetrics h live).1 (getMetrics h live).2 v) live).2 =
      readRef h live := by
  have hsnap : (getMetrics h live).2 = h.length := rfl
  have hne : live ≠ h.length := Nat.ne_of_lt hlive
  refine ⟨?_, ?_, ?_, ?_⟩
  · rw [hsnap]
    exact fun habs => hne habs.symm
  · exact readRef_append_last h (readRef h live)
  · exact readRef_writeRef_ne _ _ live h.length hne
  · have h1 : readRef (writeRef (h ++ [readRef h live]) h.length v) live =
        readRef (h ++ [readRef h live]) live :=
      readRef_writeRef_ne _ v h.length live (fun habs => hne habs.symm)
    have h2 : readRef (h ++ [readRef h live]) live = readRef h live :=
      readRef_append_lt h _ live hlive
    have h3 := readRef_append_last (writeRef (h ++ [readRef h live]) h.length v)
      (readRef (writeRef (h ++ [readRef h live]) h.length v) live)
    show readRef
        (writeRef (h ++ [readRef h live]) h.length v ++
          [readRef (writeRef (h ++ [readRef h live]) h.length v) live])
        (writeRef (h ++ [readRef h live]) h.length v).length =
      readRef h live
    rw [h3, h1, h2]

/-- Witness for C9 on a concrete one-cell heap: live metrics at address 0,
snapshot at address 1; updating the live object to totals 7 leaves the
snapshot at 0 records, and overwriting the snapshot leaves later reads of
the live object intact. -/
theorem getMetrics_returns_snapshot_witness :
    (getMetrics [initialMetrics] 0).2 ≠ 0 ∧
    readRef (getMetrics [initialMetrics] 0).1 (getMetrics [initialMetrics] 0).2 =
      initialMetrics ∧
    readRef (applySuccessMetrics (getMetrics [initialMetrics] 0).1 0 21 100 7)
        (getMetrics [initialMetrics] 0).2 = initialMetrics := by
  have h := getMetrics_returns_snapshot [initialMetrics] 0 (by decide)
    { lastSyncTime := 9, lastSuccessfulSync := some 9, totalProcessedRecords := 9 }
    21 100 7
  refine ⟨h.1, ?_, ?_⟩
  · rw [h.2.1]
    rfl
  · rw [h.2.2.1, h.2.1]
    rfl

/-- Boolean predicate: the character is not '/'. -/
def notSlash (c : Char) : Bool := c ≠ '/'

theorem splitSlash_ne_nil (l : List Char) : splitSlash l ≠ [] := by
  cases l with
  | nil => simp [splitSlash]
  | cons c rest =>
    by_cases hc : c = '/'
    · simp [splitSlash, hc]
    · simp only [splitSlash, if_neg hc]
      cases hs : splitSlash rest with
      | nil => simp
      | cons s ss => simp

theorem splitSlash_cons_eq (l : List Char) :
    splitSlash l = l.takeWhile notSlash ::
      (if '/' ∈ l then splitSlash ((l.dropWhile notSlash).tail) else []) := by
  induction l with
  | nil => simp [splitSlash]
  | cons c rest ih =>
    by_cases hc : c = '/'
    · subst hc
      have ht : notSlash '/' = false := rfl
      simp [splitSlash, ht]
    · have ht : notSlash c = true := by simp [notSlash, hc]
      have hmem : ('/' ∈ c :: rest) ↔ ('/' ∈ rest) := by
        constructor
        · intro h
          rcases List.mem_cons.mp h with h | h
          · exact absurd h.symm hc
          · exact h
        · exact fun h => List.mem_cons_of_mem c h
      simp only [splitSlash, if_neg hc]
      rw [ih]
      simp [List.takeWhile_cons, List.dropWhile_cons, ht, hmem]

theorem jsSplit_head (s : String) :
    (jsSplit s).getD 0 "" = String.mk (s.toList.takeWhile notSlash) := by
  unfold jsSplit
  rw [splitSlash_cons_eq]
  rfl

theorem jsSplit_second_none {s : String} (h : '/' ∉ s.toList) :
    (jsSplit s)[1]? = none := by
  unfold jsSplit
  rw [splitSlash_cons_eq, if_neg h]
  rfl

theorem jsSplit_second_some {s : String} (h : '/' ∈ s.toList) :
    (jsSplit s)[1]? = some (String.mk
      (((s.toList.dropWhile notSlash).tail).takeWhile notSlash)) := by
  unfold jsSplit
  rw [splitSlash_cons_eq, if_pos h,
    splitSlash_cons_eq ((s.toList.dropWhile notSlash).tail)]
  simp

theorem takeWhile_all {l : List Char} (h : ∀ c ∈ l, notSlash c = true) :
    l.takeWhile notSlash = l := by
  induction l with
  | nil => rfl
  | cons c t ih =>
    rw [List.takeWhile_cons, if_pos (h c (List.mem_cons_self c t))]
    rw [ih (fun c2 hm => h c2 (List.mem_cons_of_mem c hm))]

/-- The claim's phrase "the part of the project's name before the first
'/'", read directly from the spec sentence. -/
def beforeFirstSlash (s : String) : String :=
  String.mk (s.toList.takeWhile notSlash)

/-- The claim's phrase "the segment between the first and second '/'": the
characters after the first '/' up to the next '/' or the end of the name. -/
def betweenFirstAndSecondSlash (s : String) : String :=
  String.mk (((s.toList.dropWhile notSlash).tail).takeWhile notSlash)

/-- C10: for every project translated by the multi-chain handler, the
uploaded document's `ownerName` is the part of the project's name before the
first '/' and, when the name contains a '/', `repoName` is the segment
between the first '/' and the following '/' or the end of the name; when
the name contains no '/', `ownerName` is the whole name and `repoName` is
undefined (absent). -/
theorem toProjectDoc_name_split (p : MC.Project) :
    (MC.toProjectDoc p).ownerName = beforeFirstSlash p.name ∧
    ('/' ∈ p.name.toList →
      (MC.toProjectDoc p).repoName = some (betweenFirstAndSecondSlash p.name)) ∧
    ('/' ∉ p.name.toList →
      (MC.toProjectDoc p).ownerName = p.name ∧
      (MC.toProjectDoc p).repoName = none) := by
  refine ⟨jsSplit_head p.name, fun h => ?_, fun h => ?_⟩
  · show (jsSplit p.name)[1]? = _
    rw [jsSplit_second_some h]
    rfl
  · constructor
    · show (jsSplit p.name).getD 0 "" = p.name
      rw [jsSplit_head, takeWhile_all (fun c hm => by
        simp only [notSlash, decide_eq_true_eq]
        intro habs
        exact h (habs ▸ hm))]
      rfl
    · exact jsSplit_second_none h

/-- Witness for C10: the sample project named "alice/repo" yields
`ownerName = "alice"` and `repoName = "repo"`; a slash-free name "solo"
yields `ownerName = "solo"` and no `repoName`. -/
theorem toProjectDoc_name_split_witness :
    (MC.toProjectDoc mcProjA).ownerName = "alice" ∧
    (MC.toProjectDoc mcProjA).repoName = some "repo" ∧
    (MC.toProjectDoc { mcProjA with name := "solo" }).ownerName = "solo" ∧
    (MC.toProjectDoc { mcProjA with name := "solo" }).repoName = none := by
  have h1 := toProjectDoc_name_split mcProjA
  have h2 := toProjectDoc_name_split { mcProjA with name := "solo" }
  refine ⟨?_, ?_, ?_, ?_⟩
  · rw [h1.1]
    rfl
  · rw [h1.2.1 (by decide)]
    rfl
  · exact (h2.2.2 (by decide)).1
  · exact (h2.2.2 (by decide)).2

end SearchSync
